import Mathlib

/-!
Shallow embedding of the `EncryptedHighLow` contract
(`src/contracts/EncryptedHighLow.sol`).

Addresses, wei amounts, timestamps, hashes and uint8 values are modelled as
`Nat` (all arithmetic in the contract is on `uint256`/`uint8` values far from
overflow: `totalPot` additions and the pot split never exceed the caller-funded
amounts, so no `% 2^256` wrap is reachable or modelled).  Each external entry
point becomes a pure function from its calldata, the relevant block context
(`now` for `block.timestamp`, `chainid`, `sender` for `msg.sender`, `msgValue`
for `msg.value`) and the pre-state `Game` to `Except Err` of the post-state;
an `Except.error` models a revert, which leaves the stored state unchanged.
Value transfers performed by a call are returned as a list of
(recipient, amount) pairs.  The FHE ciphertext of a participant's guess is
modelled by its plaintext `choice : Bool` (the contract itself never branches
on it; only the decryption oracle could).  `keccak256(abi.encodePacked(·,·))`
is an external primitive and is passed in as an abstract function argument.
-/

namespace EncryptedHighLow

/-- Revert reasons of the contract, one constructor per distinct
`require` message string. -/
inductive Err where
  | gameNotFound            -- "game not found"
  | endTimeTooSoon          -- "end time too soon"
  | minStakeTooLow          -- "min stake too low"
  | rewardTooSmall          -- "reward too small"
  | rewardFundingMismatch   -- "reward funding mismatch"
  | matchAlreadyClosed      -- "match already closed"
  | settlementInProgress    -- "settlement in progress"
  | creatorCannotJoin       -- "creator cannot join"
  | alreadyJoined           -- "already joined"
  | insufficientStake       -- "insufficient stake"
  | roundStillActive        -- "round still active"
  | alreadySettled          -- "already settled"
  | revealAlreadyPending    -- "reveal pending"
  | noPendingReveal         -- "no pending reveal"
  | badSignatures           -- FHE.checkSignatures revert
  | debugDisabled           -- "debug disabled"
  | roundActive             -- "round active"
  | mismatchGuesses         -- "mismatch guesses"
  | onlyCreatorReveal       -- "only creator can reveal"
  | hashMismatch            -- "hash mismatch"
  | notSettled              -- "not settled"
  | notCreator              -- "not creator"
  | notAChallenger          -- "not a challenger"
  | notEligible             -- "not eligible"
  | alreadyClaimed          -- "already claimed"
  | nothingToClaim          -- "nothing to claim"
  deriving DecidableEq, Repr

/-- `struct Participant`.  The `ebool choice` ciphertext is modelled by its
plaintext; the contract never reads it outside of handing it to the oracle. -/
structure Participant where
  choice : Bool
  stake : Nat
  exists_ : Bool
  won : Bool
  claimed : Bool
  choiceRevealed : Bool
  guessedBig : Bool
  deriving DecidableEq, Repr

/-- Zero value of a `Participant` storage slot (Solidity mapping default). -/
def Participant.zero : Participant :=
  { choice := false, stake := 0, exists_ := false, won := false
    claimed := false, choiceRevealed := false, guessedBig := false }

/-- `struct Game`.  The `mapping(address => Participant)` is a total function
with the zero `Participant` as default; `euint8 secretNumber` is carried as an
opaque handle id (never branched on by the contract). -/
structure Game where
  creator : Nat
  minStake : Nat
  endTime : Nat
  createdAt : Nat
  rewardPool : Nat
  totalPot : Nat
  secretNumber : Nat
  secretNumberHash : Nat
  revealPending : Bool
  settled : Bool
  autoSettleEnabled : Bool
  requestId : Nat
  revealedNumber : Nat
  numberIsBig : Bool
  winnersCount : Nat
  creatorShare : Nat
  payoutPerWinner : Nat
  creatorBonusRemainder : Nat
  creatorClaimed : Bool
  participantList : List Nat
  participants : Nat → Participant

/-- Point update of the participants mapping. -/
def updP (ps : Nat → Participant) (a : Nat) (v : Participant) : Nat → Participant :=
  fun b => if b = a then v else ps b

/-- Constants of the contract (in wei / seconds). -/
def MIN_CREATOR_REWARD : Nat := 1
def MIN_STAKE : Nat := 1000000000000000
def MIN_DURATION : Nat := 60

/-- `createGame`: validates parameters and returns the freshly initialised
`Game` record (the global `nextGameId` counter is not part of the per-game
model).  `now` is `block.timestamp`, `msgValue` is `msg.value`. -/
def createGame (sender now msgValue : Nat) (secretNumberHandle : Nat)
    (secretNumberHash minStake endTime rewardPool : Nat)
    (enableAutoSettle : Bool) : Except Err Game :=
  if ¬ (endTime > now + MIN_DURATION) then .error .endTimeTooSoon
  else if ¬ (minStake ≥ MIN_STAKE) then .error .minStakeTooLow
  else if ¬ (rewardPool ≥ MIN_CREATOR_REWARD) then .error .rewardTooSmall
  else if ¬ (msgValue = rewardPool) then .error .rewardFundingMismatch
  else .ok
    { creator := sender
      minStake := minStake
      endTime := endTime
      createdAt := now
      rewardPool := rewardPool
      totalPot := rewardPool
      secretNumber := secretNumberHandle
      secretNumberHash := secretNumberHash
      revealPending := false
      settled := false
      autoSettleEnabled := enableAutoSettle
      requestId := 0
      revealedNumber := 0
      numberIsBig := false
      winnersCount := 0
      creatorShare := 0
      payoutPerWinner := 0
      creatorBonusRemainder := 0
      creatorClaimed := false
      participantList := []
      participants := fun _ => Participant.zero }

/-- `joinGame`: guards in source order, then records the participant, appends
to `participantList` and adds `msg.value` to `totalPot`.  As in the Solidity
storage write, only `choice`, `stake` and `exists` are assigned. -/
def joinGame (sender now msgValue : Nat) (choice : Bool) (g : Game) :
    Except Err Game :=
  if ¬ (now < g.endTime) then .error .matchAlreadyClosed
  else if ¬ (¬ g.revealPending ∧ ¬ g.settled) then .error .settlementInProgress
  else if ¬ (sender ≠ g.creator) then .error .creatorCannotJoin
  else if ¬ (¬ (g.participants sender).exists_) then .error .alreadyJoined
  else if ¬ (msgValue ≥ g.minStake) then .error .insufficientStake
  else
    let p := g.participants sender
    .ok { g with
          totalPot := g.totalPot + msgValue
          participants := updP g.participants sender
            { p with choice := choice, stake := msgValue, exists_ := true }
          participantList := g.participantList ++ [sender] }

/-- `requestReveal`: marks the reveal pending and records the oracle request
id (`rid` stands for the value `FHE.requestDecryption` returned). -/
def requestReveal (now rid : Nat) (g : Game) : Except Err Game :=
  if ¬ (now ≥ g.endTime) then .error .roundStillActive
  else if ¬ (¬ g.settled) then .error .alreadySettled
  else if ¬ (¬ g.revealPending) then .error .revealAlreadyPending
  else .ok { g with revealPending := true, requestId := rid }

/-- The `for` loop of `_completeSettlement`: walking `participantList` and the
`guesses` array in lockstep, set `choiceRevealed := true` and
`guessedBig := guesses[i]` on each participant's storage slot. -/
def markRevealed (ps : Nat → Participant) :
    List Nat → List Bool → (Nat → Participant)
  | [], _ => ps
  | _ :: _, [] => ps
  | a :: as, b :: bs =>
      markRevealed
        (updP ps a { ps a with choiceRevealed := true, guessedBig := b })
        as bs

/-- `_completeSettlement`: the shared settlement computation.  Returns the
post-state together with the `(winnersCount, creatorPayout, perWinner)`
return values.  Faithful to the source: after marking each participant's
revealed guess it sets `winnersCount = 0`, `creatorShare = totalPot`,
`payoutPerWinner = 0`, `creatorBonusRemainder = 0` and never assigns any
participant's `won` flag. -/
def completeSettlement (g : Game) (revealedNumber : Nat)
    (guesses : List Bool) : Except Err (Game × Nat × Nat × Nat) :=
  let g1 := { g with
              revealPending := false
              settled := true
              revealedNumber := revealedNumber
              numberIsBig := revealedNumber > 5 }
  let participantCount := g1.participantList.length
  if participantCount = 0 then
    .ok ({ g1 with winnersCount := 0, creatorShare := g1.totalPot
                   payoutPerWinner := 0, creatorBonusRemainder := 0 },
         0, g1.totalPot, 0)
  else if ¬ (guesses.length = participantCount) then .error .mismatchGuesses
  else
    let g2 := { g1 with
                participants := markRevealed g1.participants
                  g1.participantList guesses }
    let g3 := { g2 with winnersCount := 0, creatorShare := g2.totalPot
                        payoutPerWinner := 0, creatorBonusRemainder := 0 }
    .ok (g3, 0, g3.totalPot, 0)

/-- `_autoDistributeRewards`: pays the creator share (only) when positive and
unclaimed, marking `creatorClaimed` before the transfer. -/
def autoDistributeRewards (g : Game) : Game × List (Nat × Nat) :=
  let creatorPayout := g.creatorShare + g.creatorBonusRemainder
  if creatorPayout > 0 ∧ ¬ g.creatorClaimed then
    ({ g with creatorClaimed := true }, [(g.creator, creatorPayout)])
  else (g, [])

/-- `revealCallback`: oracle callback.  `sigOk` stands for
`FHE.checkSignatures` succeeding; `revealed`/`guesses` are the decoded
cleartexts (with zero participants only the `uint8` is decoded and an empty
guesses array is passed on). -/
def revealCallback (sigOk : Bool) (revealed : Nat) (guesses : List Bool)
    (g : Game) : Except Err (Game × List (Nat × Nat)) :=
  if ¬ g.revealPending then .error .noPendingReveal
  else if ¬ sigOk then .error .badSignatures
  else
    let gs := if g.participantList.length = 0 then [] else guesses
    match completeSettlement g revealed gs with
    | .error e => .error e
    | .ok (g', _, _, _) =>
        if g'.autoSettleEnabled then .ok (autoDistributeRewards g')
        else .ok (g', [])

/-- `debugReveal`: test-only settlement path, gated on local chain ids. -/
def debugReveal (chainid now : Nat) (revealedNumber : Nat)
    (guesses : List Bool) (g : Game) : Except Err Game :=
  if ¬ (chainid = 31337 ∨ chainid = 1337) then .error .debugDisabled
  else if ¬ (¬ g.settled) then .error .alreadySettled
  else if ¬ (now ≥ g.endTime) then .error .roundActive
  else if ¬ (g.participantList.length = guesses.length) then
    .error .mismatchGuesses
  else
    match completeSettlement g revealedNumber guesses with
    | .error e => .error e
    | .ok (g', _, _, _) => .ok g'

/-- `fairReveal`: commit-reveal settlement path.  `keccak` is the abstract
`keccak256(abi.encodePacked(uint8, bytes32))`.  Faithful to the source: the
guesses array passed to the settlement is `true` at every index. -/
def fairReveal (keccak : Nat → Nat → Nat) (sender now : Nat)
    (originalSecretNumber salt : Nat) (g : Game) : Except Err Game :=
  if ¬ (¬ g.settled) then .error .alreadySettled
  else if ¬ (now ≥ g.endTime) then .error .roundActive
  else if ¬ (sender = g.creator) then .error .onlyCreatorReveal
  else if ¬ (keccak originalSecretNumber salt = g.secretNumberHash) then
    .error .hashMismatch
  else
    let guesses := List.replicate g.participantList.length true
    match completeSettlement g originalSecretNumber guesses with
    | .error e => .error e
    | .ok (g', _, _, _) => .ok g'

/-- `autoSettle`: triggers a decryption request when none is pending; the two
chain-id branches of the source perform the identical state change. -/
def autoSettle (now rid : Nat) (g : Game) : Except Err Game :=
  if ¬ (¬ g.settled) then .error .alreadySettled
  else if ¬ (now ≥ g.endTime) then .error .roundStillActive
  else if ¬ g.revealPending then
    .ok { g with requestId := rid, revealPending := true }
  else .ok g

/-- `claimCreator`: claims `creatorShare + creatorBonusRemainder`, marking
`creatorClaimed` before the transfer. -/
def claimCreator (sender : Nat) (g : Game) :
    Except Err (Game × List (Nat × Nat)) :=
  if ¬ g.settled then .error .notSettled
  else if ¬ (sender = g.creator) then .error .notCreator
  else if ¬ (¬ g.creatorClaimed) then .error .alreadyClaimed
  else
    let amount := g.creatorShare + g.creatorBonusRemainder
    .ok ({ g with creatorClaimed := true }, [(sender, amount)])

/-- `claimWinnings`: claims `payoutPerWinner` for a winning participant,
marking `claimed` before the transfer. -/
def claimWinnings (sender : Nat) (g : Game) :
    Except Err (Game × List (Nat × Nat)) :=
  if ¬ g.settled then .error .notSettled
  else
    let p := g.participants sender
    if ¬ p.exists_ then .error .notAChallenger
    else if ¬ p.won then .error .notEligible
    else if ¬ (¬ p.claimed) then .error .alreadyClaimed
    else if ¬ (g.payoutPerWinner > 0) then .error .nothingToClaim
    else
      .ok ({ g with
             participants := updP g.participants sender
               { p with claimed := true } },
           [(sender, g.payoutPerWinner)])

/-- One state-mutating external call on a single game, abstracting over the
caller, block context and calldata.  `createGame` is the initial-state
producer and is kept separate. -/
inductive Step : Game → Game → Prop where
  | join (sender now msgValue : Nat) (choice : Bool) (g g' : Game)
      (h : joinGame sender now msgValue choice g = .ok g') : Step g g'
  | request (now rid : Nat) (g g' : Game)
      (h : requestReveal now rid g = .ok g') : Step g g'
  | callback (sigOk : Bool) (revealed : Nat) (guesses : List Bool)
      (g g' : Game) (ts : List (Nat × Nat))
      (h : revealCallback sigOk revealed guesses g = .ok (g', ts)) : Step g g'
  | debug (chainid now revealedNumber : Nat) (guesses : List Bool) (g g' : Game)
      (h : debugReveal chainid now revealedNumber guesses g = .ok g') : Step g g'
  | fair (keccak : Nat → Nat → Nat) (sender now secret salt : Nat) (g g' : Game)
      (h : fairReveal keccak sender now secret salt g = .ok g') : Step g g'
  | auto (now rid : Nat) (g g' : Game)
      (h : autoSettle now rid g = .ok g') : Step g g'
  | claimC (sender : Nat) (g g' : Game) (ts : List (Nat × Nat))
      (h : claimCreator sender g = .ok (g', ts)) : Step g g'
  | claimW (sender : Nat) (g g' : Game) (ts : List (Nat × Nat))
      (h : claimWinnings sender g = .ok (g', ts)) : Step g g'

/-- Reflexive-transitive closure of `Step`: all states a game can reach. -/
def ReachableFrom (g0 g : Game) : Prop := Relation.ReflTransGen Step g0 g

/-- Sum of the stakes recorded for the joined participants. -/
def stakesSum (g : Game) : Nat :=
  (g.participantList.map fun a => (g.participants a).stake).sum

/-- State invariant maintained by every entry point: the reward floor, the
pot accounting identity before settlement, the list/mapping join marker
agreement, and the settled-state facts used by the claim entry points. -/
def Inv (g : Game) : Prop :=
  MIN_CREATOR_REWARD ≤ g.rewardPool ∧
  g.rewardPool ≤ g.totalPot ∧
  (∀ a, a ∈ g.participantList → (g.participants a).exists_ = true) ∧
  (g.settled = false → g.totalPot = g.rewardPool + stakesSum g) ∧
  (g.settled = true → g.rewardPool ≤ g.creatorShare) ∧
  (g.settled = true → g.revealPending = false)

/-- All-zero `Game`, used as fallback by the extractors below. -/
def game0 : Game :=
  { creator := 0, minStake := 0, endTime := 0, createdAt := 0, rewardPool := 0
    totalPot := 0, secretNumber := 0, secretNumberHash := 0
    revealPending := false, settled := false, autoSettleEnabled := false
    requestId := 0, revealedNumber := 0, numberIsBig := false
    winnersCount := 0, creatorShare := 0, payoutPerWinner := 0
    creatorBonusRemainder := 0, creatorClaimed := false
    participantList := [], participants := fun _ => Participant.zero }

/-- Post-state of a successful call, with a fallback for errors. -/
def okOr (d : Game) : Except Err Game → Game
  | .ok g => g
  | .error _ => d

/-- Post-state of a successful transferring call, with a fallback. -/
def okOrT (d : Game) : Except Err (Game × List (Nat × Nat)) → Game
  | .ok (g, _) => g
  | .error _ => d

/-- Concrete round A: creator 1 funds a 0.01-ether reward pool; challengers 2
(guess big) and 3 (guess small) each stake the minimum 0.001 ether. -/
def gC1_0 : Game := okOr game0
  (createGame 1 0 10000000000000000 7 999 1000000000000000 4000
    10000000000000000 false)

def gC1_1 : Game := okOr game0 (joinGame 2 10 1000000000000000 true gC1_0)

def gC1_2 : Game := okOr game0 (joinGame 3 20 1000000000000000 false gC1_1)

/-- Round A after `debugReveal` with revealed number 8 and guesses
`[true, false]` (challenger 2 guessed right, challenger 3 wrong). -/
def gC1_s : Game := okOr game0 (debugReveal 31337 4000 8 [true, false] gC1_2)

/-- Round A settled instead through `fairReveal` (hash 8 + 0 + 991 = 999). -/
def gC1_f : Game := okOr game0
  (fairReveal (fun a b => a + b + 991) 1 4000 8 0 gC1_2)

/-- Concrete round B: same creation, a single challenger 2 guessing big. -/
def gC2_0 : Game := okOr game0
  (createGame 1 0 10000000000000000 7 999 1000000000000000 4000
    10000000000000000 false)

def gC2_1 : Game := okOr game0 (joinGame 2 10 1000000000000000 true gC2_0)

/-- Round B settled via `debugReveal` with revealed number 8, guess `[true]`. -/
def gC2_s : Game := okOr game0 (debugReveal 31337 4000 8 [true] gC2_1)

/-- Round B with a reveal pending instead of settled. -/
def gC2_p : Game := okOr game0 (requestReveal 4000 5 gC2_1)

/-- Round B settled state after the creator's claim. -/
def gC2_c : Game := okOrT game0 (claimCreator 1 gC2_s)

/-- Settled state with challenger 2 marked as a winner and a positive
`payoutPerWinner` (function-level test state for the claim entry points). -/
def gW : Game :=
  { gC2_s with
    payoutPerWinner := 5
    participants := updP gC2_s.participants 2
      { gC2_s.participants 2 with won := true } }

/-- `gW` after challenger 2's successful claim. -/
def gWc : Game := okOrT game0 (claimWinnings 2 gW)

/-- `gW` with a winner but `payoutPerWinner = 0`. -/
def gW0 : Game :=
  { gC2_s with
    participants := updP gC2_s.participants 2
      { gC2_s.participants 2 with won := true } }

/-- `gW` after the creator's claim. -/
def gWA : Game := okOrT game0 (claimCreator 1 gW)

/-- `gWA` after challenger 2's claim. -/
def gWAB : Game := okOrT game0 (claimWinnings 2 gWA)

/-- `gWc` after the creator's claim. -/
def gWcc : Game := okOrT game0 (claimCreator 1 gWc)

theorem updP_same (ps : Nat → Participant) (a : Nat) (v : Participant) :
    updP ps a v a = v := by simp [updP]

theorem updP_ne (ps : Nat → Participant) (a : Nat) (v : Participant)
    {b : Nat} (h : b ≠ a) : updP ps a v b = ps b := by simp [updP, h]

/-- `markRevealed` leaves addresses outside the visited list untouched. -/
theorem markRevealed_not_mem (as : List Nat) (bs : List Bool)
    (ps : Nat → Participant) (a : Nat) (ha : a ∉ as) :
    markRevealed ps as bs a = ps a := by
  induction as generalizing ps bs with
  | nil => simp [markRevealed]
  | cons x xs ih =>
    cases bs with
    | nil => simp [markRevealed]
    | cons b bs' =>
      have hax : a ≠ x := fun h => ha (h ▸ List.mem_cons_self x xs)
      have haxs : a ∉ xs := fun h => ha (List.mem_cons_of_mem x h)
      rw [markRevealed, ih _ _ haxs, updP_ne _ _ _ hax]

/-- `markRevealed` only writes `choiceRevealed` and `guessedBig`: every other
field of every participant is preserved. -/
theorem markRevealed_preserves (as : List Nat) (bs : List Bool)
    (ps : Nat → Participant) (a : Nat) :
    (markRevealed ps as bs a).stake = (ps a).stake ∧
    (markRevealed ps as bs a).exists_ = (ps a).exists_ ∧
    (markRevealed ps as bs a).won = (ps a).won ∧
    (markRevealed ps as bs a).claimed = (ps a).claimed ∧
    (markRevealed ps as bs a).choice = (ps a).choice := by
  induction as generalizing ps bs with
  | nil => simp [markRevealed]
  | cons x xs ih =>
    cases bs with
    | nil => simp [markRevealed]
    | cons b bs' =>
      rw [markRevealed]
      have h := ih bs' (updP ps x { ps x with choiceRevealed := true, guessedBig := b })
      by_cases hax : a = x
      · subst hax; simpa [updP_same] using h
      · simpa [updP_ne _ _ _ hax] using h

/-- Inversion of a successful `createGame`. -/
theorem createGame_ok {sender now msgValue handle hash minStake endTime rewardPool : Nat}
    {autoS : Bool} {g : Game}
    (h : createGame sender now msgValue handle hash minStake endTime rewardPool autoS = .ok g) :
    now + MIN_DURATION < endTime ∧ MIN_STAKE ≤ minStake ∧
    MIN_CREATOR_REWARD ≤ rewardPool ∧ msgValue = rewardPool ∧
    g = { creator := sender, minStake := minStake, endTime := endTime
          createdAt := now, rewardPool := rewardPool, totalPot := rewardPool
          secretNumber := handle, secretNumberHash := hash
          revealPending := false, settled := false, autoSettleEnabled := autoS
          requestId := 0, revealedNumber := 0, numberIsBig := false
          winnersCount := 0, creatorShare := 0, payoutPerWinner := 0
          creatorBonusRemainder := 0, creatorClaimed := false
          participantList := [], participants := fun _ => Participant.zero } := by
  unfold createGame at h
  split_ifs at h with h1 h2 h3 h4 <;> try exact Except.noConfusion h
  injection h with h
  exact ⟨h1, h2, h3, h4, h.symm⟩

/-- Inversion of a successful `joinGame`. -/
theorem joinGame_ok {sender now msgValue : Nat} {choice : Bool} {g g' : Game}
    (h : joinGame sender now msgValue choice g = .ok g') :
    now < g.endTime ∧ g.revealPending = false ∧ g.settled = false ∧
    sender ≠ g.creator ∧ (g.participants sender).exists_ = false ∧
    g.minStake ≤ msgValue ∧
    g' = { g with
           totalPot := g.totalPot + msgValue
           participants := updP g.participants sender
             { g.participants sender with
               choice := choice, stake := msgValue, exists_ := true }
           participantList := g.participantList ++ [sender] } := by
  unfold joinGame at h
  split_ifs at h with h1 h2 h3 h4 h5 <;> try exact Except.noConfusion h
  obtain ⟨h2a, h2b⟩ := h2
  simp only [Except.ok.injEq] at h
  exact ⟨h1, by simpa using h2a, by simpa using h2b, h3,
         by simpa using h4, h5, h.symm⟩

/-- Inversion of a successful `requestReveal`. -/
theorem requestReveal_ok {now rid : Nat} {g g' : Game}
    (h : requestReveal now rid g = .ok g') :
    g.endTime ≤ now ∧ g.settled = false ∧ g.revealPending = false ∧
    g' = { g with revealPending := true, requestId := rid } := by
  unfold requestReveal at h
  split_ifs at h with h1 h2 h3 <;> try exact Except.noConfusion h
  injection h with h
  exact ⟨h1, by simpa using h2, by simpa using h3, h.symm⟩

/-- Inversion of a successful `completeSettlement`: the fields it writes, the
fields it provably leaves alone (in particular no participant's `won`, `stake`,
`exists`, `claimed` or `choice` is ever modified), and the returned triple. -/
theorem completeSettlement_ok {g : Game} {rn : Nat} {gs : List Bool}
    {r : Game × Nat × Nat × Nat}
    (h : completeSettlement g rn gs = .ok r) :
    r.1.settled = true ∧ r.1.revealPending = false ∧
    r.1.revealedNumber = rn ∧ r.1.numberIsBig = decide (rn > 5) ∧
    r.1.winnersCount = 0 ∧ r.1.creatorShare = g.totalPot ∧
    r.1.payoutPerWinner = 0 ∧ r.1.creatorBonusRemainder = 0 ∧
    r.1.totalPot = g.totalPot ∧ r.1.rewardPool = g.rewardPool ∧
    r.1.creator = g.creator ∧ r.1.creatorClaimed = g.creatorClaimed ∧
    r.1.participantList = g.participantList ∧
    r.1.endTime = g.endTime ∧ r.1.minStake = g.minStake ∧
    r.1.secretNumberHash = g.secretNumberHash ∧
    r.1.autoSettleEnabled = g.autoSettleEnabled ∧
    (∀ a, (r.1.participants a).stake = (g.participants a).stake ∧
          (r.1.participants a).exists_ = (g.participants a).exists_ ∧
          (r.1.participants a).won = (g.participants a).won ∧
          (r.1.participants a).claimed = (g.participants a).claimed) ∧
    r.2.1 = 0 ∧ r.2.2.1 = g.totalPot ∧ r.2.2.2 = 0 := by
  simp only [completeSettlement] at h
  split_ifs at h with h1 h2 <;> try exact Except.noConfusion h
  · injection h with h
    subst h
    refine ⟨rfl, rfl, rfl, rfl, rfl, rfl, rfl, rfl, rfl, rfl, rfl, rfl, rfl,
            rfl, rfl, rfl, rfl, fun a => ⟨rfl, rfl, rfl, rfl⟩, rfl, rfl, rfl⟩
  · injection h with h
    subst h
    refine ⟨rfl, rfl, rfl, rfl, rfl, rfl, rfl, rfl, rfl, rfl, rfl, rfl, rfl,
            rfl, rfl, rfl, rfl, fun a => ?_, rfl, rfl, rfl⟩
    have hp := markRevealed_preserves g.participantList gs g.participants a
    exact ⟨hp.1, hp.2.1, hp.2.2.1, hp.2.2.2.1⟩

/-- `_autoDistributeRewards` either does nothing or marks the creator claimed
and pays out exactly `creatorShare + creatorBonusRemainder`. -/
theorem autoDistributeRewards_cases (g : Game) :
    autoDistributeRewards g = (g, []) ∨
    (0 < g.creatorShare + g.creatorBonusRemainder ∧ g.creatorClaimed = false ∧
     autoDistributeRewards g =
       ({ g with creatorClaimed := true },
        [(g.creator, g.creatorShare + g.creatorBonusRemainder)])) := by
  simp only [autoDistributeRewards]
  split_ifs with h1
  · exact Or.inr ⟨h1.1, by simpa using h1.2, rfl⟩
  · exact Or.inl rfl

/-- Inversion of a successful `revealCallback`. -/
theorem revealCallback_ok {sigOk : Bool} {revealed : Nat} {guesses : List Bool}
    {g g' : Game} {ts : List (Nat × Nat)}
    (h : revealCallback sigOk revealed guesses g = .ok (g', ts)) :
    g.revealPending = true ∧ sigOk = true ∧
    ∃ g1 r2,
      completeSettlement g revealed
        (if g.participantList.length = 0 then [] else guesses) = .ok (g1, r2) ∧
      ((g1.autoSettleEnabled = true ∧ (g', ts) = autoDistributeRewards g1) ∨
       (g1.autoSettleEnabled = false ∧ g' = g1 ∧ ts = [])) := by
  simp only [revealCallback] at h
  split_ifs at h with h1 h2 h3 <;> try exact Except.noConfusion h
  · refine ⟨by simpa using h1, by simpa using h2, ?_⟩
    obtain ⟨res, hres⟩ : ∃ res, completeSettlement g revealed [] = res := ⟨_, rfl⟩
    rw [hres] at h
    rcases res with e | ⟨g1, w, cp, pw⟩
    · dsimp only at h; exact Except.noConfusion h
    · dsimp only at h
      have hgoal : completeSettlement g revealed
          (if g.participantList.length = 0 then [] else guesses) =
            .ok (g1, w, cp, pw) := by
        rw [if_pos h3]; exact hres
      refine ⟨g1, (w, cp, pw), hgoal, ?_⟩
      by_cases hA : g1.autoSettleEnabled = true
      · rw [if_pos hA] at h
        injection h with h
        exact Or.inl ⟨hA, h.symm⟩
      · rw [if_neg hA] at h
        simp only [Except.ok.injEq, Prod.mk.injEq] at h
        exact Or.inr ⟨by simpa using hA, h.1.symm, h.2.symm⟩
  · refine ⟨by simpa using h1, by simpa using h2, ?_⟩
    obtain ⟨res, hres⟩ : ∃ res, completeSettlement g revealed guesses = res := ⟨_, rfl⟩
    rw [hres] at h
    rcases res with e | ⟨g1, w, cp, pw⟩
    · dsimp only at h; exact Except.noConfusion h
    · dsimp only at h
      have hgoal : completeSettlement g revealed
          (if g.participantList.length = 0 then [] else guesses) =
            .ok (g1, w, cp, pw) := by
        rw [if_neg h3]; exact hres
      refine ⟨g1, (w, cp, pw), hgoal, ?_⟩
      by_cases hA : g1.autoSettleEnabled = true
      · rw [if_pos hA] at h
        injection h with h
        exact Or.inl ⟨hA, h.symm⟩
      · rw [if_neg hA] at h
        simp only [Except.ok.injEq, Prod.mk.injEq] at h
        exact Or.inr ⟨by simpa using hA, h.1.symm, h.2.symm⟩

/-- Inversion of a successful `debugReveal`. -/
theorem debugReveal_ok {chainid now rn : Nat} {gs : List Bool} {g g' : Game}
    (h : debugReveal chainid now rn gs g = .ok g') :
    (chainid = 31337 ∨ chainid = 1337) ∧ g.settled = false ∧
    g.endTime ≤ now ∧ g.participantList.length = gs.length ∧
    ∃ r2, completeSettlement g rn gs = .ok (g', r2) := by
  simp only [debugReveal] at h
  split_ifs at h with h1 h2 h3 h4 <;> try exact Except.noConfusion h
  refine ⟨h1, by simpa using h2, h3, h4, ?_⟩
  obtain ⟨res, hres⟩ : ∃ res, completeSettlement g rn gs = res := ⟨_, rfl⟩
  rw [hres] at h
  rcases res with e | ⟨g1, w, cp, pw⟩
  · dsimp only at h; exact Except.noConfusion h
  · dsimp only at h
    injection h with h
    exact ⟨(w, cp, pw), h ▸ hres⟩

/-- Inversion of a successful `fairReveal`. -/
theorem fairReveal_ok {keccak : Nat → Nat → Nat} {sender now secret salt : Nat}
    {g g' : Game} (h : fairReveal keccak sender now secret salt g = .ok g') :
    g.settled = false ∧ g.endTime ≤ now ∧ sender = g.creator ∧
    keccak secret salt = g.secretNumberHash ∧
    ∃ r2, completeSettlement g secret
      (List.replicate g.participantList.length true) = .ok (g', r2) := by
  simp only [fairReveal] at h
  split_ifs at h with h1 h2 h3 h4 <;> try exact Except.noConfusion h
  refine ⟨by simpa using h1, h2, h3, h4, ?_⟩
  obtain ⟨res, hres⟩ : ∃ res, completeSettlement g secret
      (List.replicate g.participantList.length true) = res := ⟨_, rfl⟩
  rw [hres] at h
  rcases res with e | ⟨g1, w, cp, pw⟩
  · dsimp only at h; exact Except.noConfusion h
  · dsimp only at h
    injection h with h
    exact ⟨(w, cp, pw), h ▸ hres⟩

/-- Inversion of a successful `autoSettle`. -/
theorem autoSettle_ok {now rid : Nat} {g g' : Game}
    (h : autoSettle now rid g = .ok g') :
    g.settled = false ∧ g.endTime ≤ now ∧
    (g' = { g with requestId := rid, revealPending := true } ∨
     (g.revealPending = true ∧ g' = g)) := by
  unfold autoSettle at h
  split_ifs at h with h1 h2 h3 <;> try exact Except.noConfusion h
  · injection h with h
    exact ⟨by simpa using h1, h2, Or.inr ⟨by simpa using h3, h.symm⟩⟩
  · injection h with h
    exact ⟨by simpa using h1, h2, Or.inl h.symm⟩

/-- Inversion of a successful `claimCreator`. -/
theorem claimCreator_ok {sender : Nat} {g g' : Game} {ts : List (Nat × Nat)}
    (h : claimCreator sender g = .ok (g', ts)) :
    g.settled = true ∧ sender = g.creator ∧ g.creatorClaimed = false ∧
    g' = { g with creatorClaimed := true } ∧
    ts = [(sender, g.creatorShare + g.creatorBonusRemainder)] := by
  simp only [claimCreator] at h
  split_ifs at h with h1 h2 h3 <;> try exact Except.noConfusion h
  simp only [Except.ok.injEq, Prod.mk.injEq] at h
  exact ⟨by simpa using h1, h2, by simpa using h3, h.1.symm, h.2.symm⟩

/-- Inversion of a successful `claimWinnings`. -/
theorem claimWinnings_ok {sender : Nat} {g g' : Game} {ts : List (Nat × Nat)}
    (h : claimWinnings sender g = .ok (g', ts)) :
    g.settled = true ∧ (g.participants sender).exists_ = true ∧
    (g.participants sender).won = true ∧
    (g.participants sender).claimed = false ∧ 0 < g.payoutPerWinner ∧
    g' = { g with
           participants := updP g.participants sender
             { g.participants sender with claimed := true } } ∧
    ts = [(sender, g.payoutPerWinner)] := by
  simp only [claimWinnings] at h
  split_ifs at h with h1 h2 h3 h4 h5 <;> try exact Except.noConfusion h
  simp only [Except.ok.injEq, Prod.mk.injEq] at h
  exact ⟨by simpa using h1, by simpa using h2, by simpa using h3,
         by simpa using h4, h5, h.1.symm, h.2.symm⟩

/-- `createGame` establishes the invariant. -/
theorem Inv_create {sender now msgValue handle hash minStake endTime rewardPool : Nat}
    {autoS : Bool} {g : Game}
    (h : createGame sender now msgValue handle hash minStake endTime rewardPool autoS = .ok g) :
    Inv g := by
  obtain ⟨-, -, h3, -, h5⟩ := createGame_ok h
  subst h5
  refine ⟨h3, le_refl _, by simp, fun _ => by simp [stakesSum], ?_, ?_⟩ <;>
    (intro hs; simp at hs)

/-- `joinGame` preserves the invariant. -/
theorem Inv_join {sender now msgValue : Nat} {choice : Bool} {g g' : Game}
    (h : joinGame sender now msgValue choice g = .ok g') (hI : Inv g) :
    Inv g' := by
  obtain ⟨-, -, hset, -, hex, -, h7⟩ := joinGame_ok h
  obtain ⟨i1, i2, i3, i4, -, -⟩ := hI
  have hsender : sender ∉ g.participantList := fun hmem => by
    rw [i3 sender hmem] at hex; exact Bool.false_ne_true hex.symm
  subst h7
  refine ⟨i1, le_trans i2 (Nat.le_add_right _ _), ?_, ?_, ?_, ?_⟩
  · intro a ha
    dsimp only at ha ⊢
    rcases List.mem_append.1 ha with ha | ha
    · have hne : a ≠ sender := fun hEq => hsender (hEq ▸ ha)
      rw [updP_ne _ _ _ hne]
      exact i3 a ha
    · have : a = sender := by simpa using ha
      subst this
      rw [updP_same]
  · intro _
    dsimp only [stakesSum]
    have hmap : (g.participantList.map fun a =>
        ((updP g.participants sender
          { g.participants sender with
            choice := choice, stake := msgValue, exists_ := true }) a).stake) =
        g.participantList.map fun a => (g.participants a).stake := by
      refine List.map_congr_left fun a ha => ?_
      have hne : a ≠ sender := fun hEq => hsender (hEq ▸ ha)
      rw [updP_ne _ _ _ hne]
    simp only [List.map_append, List.sum_append, List.map_cons,
      List.map_nil, List.sum_cons, List.sum_nil, hmap, updP_same]
    rw [i4 hset]
    simp only [stakesSum]
    omega
  · intro hs; dsimp only at hs; rw [hset] at hs; exact absurd hs (by simp)
  · intro hs; dsimp only at hs; rw [hset] at hs; exact absurd hs (by simp)

/-- `completeSettlement` (re-)establishes the invariant. -/
theorem Inv_settle {g : Game} {rn : Nat} {gs : List Bool}
    {r : Game × Nat × Nat × Nat}
    (h : completeSettlement g rn gs = .ok r) (hI : Inv g) : Inv r.1 := by
  obtain ⟨c1, c2, -, -, -, c6, -, -, c9, c10, -, -, c13, -, -, -, -, c18, -⟩ :=
    completeSettlement_ok h
  obtain ⟨i1, i2, i3, -, -, -⟩ := hI
  refine ⟨c10 ▸ i1, ?_, ?_, ?_, ?_, ?_⟩
  · rw [c10, c9]; exact i2
  · intro a ha
    rw [c13] at ha
    rw [(c18 a).2.1]
    exact i3 a ha
  · intro hs; rw [c1] at hs; exact absurd hs (by simp)
  · intro _; rw [c10, c6]; exact i2
  · intro _; exact c2

/-- `autoDistributeRewards` preserves the invariant (it only flips
`creatorClaimed`). -/
theorem Inv_autoDistribute {g : Game} (hI : Inv g) :
    Inv (autoDistributeRewards g).1 := by
  rcases autoDistributeRewards_cases g with hc | ⟨-, -, hc⟩ <;>
    rw [hc] <;> exact hI

/-- Every `Step` preserves the invariant. -/
theorem Inv_step {g g' : Game} (h : Step g g') (hI : Inv g) : Inv g' := by
  cases h with
  | join _ _ _ _ _ _ h => exact Inv_join h hI
  | request _ _ _ _ h =>
    obtain ⟨-, hset, -, h4⟩ := requestReveal_ok h
    obtain ⟨i1, i2, i3, i4, -, -⟩ := hI
    subst h4
    refine ⟨i1, i2, i3, fun _ => by simpa [stakesSum] using i4 hset, ?_, ?_⟩ <;>
      (intro hs; rw [hset] at hs; exact absurd hs (by simp))
  | callback _ _ _ _ _ _ h =>
    obtain ⟨-, -, g1, r2, hcs, hrest⟩ := revealCallback_ok h
    have hI1 : Inv g1 := Inv_settle (r := (g1, r2)) hcs hI
    rcases hrest with ⟨-, hpair⟩ | ⟨-, h5, -⟩
    · have := congrArg Prod.fst hpair
      simp only at this
      rw [this]
      exact Inv_autoDistribute hI1
    · rw [h5]; exact hI1
  | debug _ _ _ _ _ _ h =>
    obtain ⟨-, -, -, -, r2, hcs⟩ := debugReveal_ok h
    exact Inv_settle (r := (_, r2)) hcs hI
  | fair _ _ _ _ _ _ _ h =>
    obtain ⟨-, -, -, -, r2, hcs⟩ := fairReveal_ok h
    exact Inv_settle (r := (_, r2)) hcs hI
  | auto _ _ _ _ h =>
    obtain ⟨hset, -, hd⟩ := autoSettle_ok h
    obtain ⟨i1, i2, i3, i4, -, -⟩ := hI
    rcases hd with h4 | ⟨-, h4⟩
    · subst h4
      refine ⟨i1, i2, i3, fun _ => by simpa [stakesSum] using i4 hset, ?_, ?_⟩ <;>
        (intro hs; rw [hset] at hs; exact absurd hs (by simp))
    · subst h4; exact ⟨i1, i2, i3, i4, fun hs => by
        rw [hset] at hs; exact absurd hs (by simp), fun hs => by
        rw [hset] at hs; exact absurd hs (by simp)⟩
  | claimC _ _ _ _ h =>
    obtain ⟨-, -, -, h4, -⟩ := claimCreator_ok h
    obtain ⟨i1, i2, i3, i4, i5, i6⟩ := hI
    subst h4
    exact ⟨i1, i2, i3, fun hs => by simpa [stakesSum] using i4 hs,
           i5, i6⟩
  | claimW sender _ _ _ h =>
    obtain ⟨-, -, -, -, -, h6, -⟩ := claimWinnings_ok h
    obtain ⟨i1, i2, i3, i4, i5, i6⟩ := hI
    subst h6
    refine ⟨i1, i2, ?_, ?_, i5, i6⟩
    · intro a ha
      dsimp only at ha ⊢
      by_cases hEq : a = sender
      · subst hEq; rw [updP_same]; exact i3 a ha
      · rw [updP_ne _ _ _ hEq]; exact i3 a ha
    · intro hs
      have hmap : (g.participantList.map fun a =>
          ((updP g.participants sender
            { g.participants sender with claimed := true }) a).stake) =
          g.participantList.map fun a => (g.participants a).stake := by
        refine List.map_congr_left fun a _ => ?_
        by_cases hEq : a = sender
        · subst hEq; rw [updP_same]
        · rw [updP_ne _ _ _ hEq]
      simp only [stakesSum, hmap]
      exact i4 hs

/-- The invariant holds at every reachable state. -/
theorem Inv_reachable {g0 g : Game} (h : ReachableFrom g0 g) (hI : Inv g0) :
    Inv g := by
  induction h with
  | refl => exact hI
  | tail _ hstep ih => exact Inv_step hstep ih

/-- Once a game is settled, no step changes `totalPot`. -/
theorem Step_totalPot {g g' : Game} (h : Step g g') (hs : g.settled = true) :
    g'.totalPot = g.totalPot := by
  cases h with
  | join _ _ _ _ _ _ h =>
    obtain ⟨-, -, hset, -⟩ := joinGame_ok h
    rw [hs] at hset; exact absurd hset (by decide)
  | request _ _ _ _ h =>
    obtain ⟨-, hset, -⟩ := requestReveal_ok h
    rw [hs] at hset; exact absurd hset (by decide)
  | callback _ _ _ _ _ _ h =>
    obtain ⟨-, -, g1, r2, hcs, hrest⟩ := revealCallback_ok h
    have c := completeSettlement_ok (r := (g1, r2)) hcs
    have c9 : g1.totalPot = g.totalPot := c.2.2.2.2.2.2.2.2.1
    rcases hrest with ⟨-, hpair⟩ | ⟨-, h5, -⟩
    · have hfst := congrArg Prod.fst hpair
      simp only at hfst
      rcases autoDistributeRewards_cases g1 with hc | ⟨-, -, hc⟩ <;>
        (rw [hc] at hfst; rw [hfst]; exact c9)
    · rw [h5]; exact c9
  | debug _ _ _ _ _ _ h =>
    obtain ⟨-, hset, -⟩ := debugReveal_ok h
    rw [hs] at hset; exact absurd hset (by decide)
  | fair _ _ _ _ _ _ _ h =>
    obtain ⟨hset, -⟩ := fairReveal_ok h
    rw [hs] at hset; exact absurd hset (by decide)
  | auto _ _ _ _ h =>
    obtain ⟨hset, -⟩ := autoSettle_ok h
    rw [hs] at hset; exact absurd hset (by decide)
  | claimC _ _ _ _ h =>
    obtain ⟨-, -, -, h4, -⟩ := claimCreator_ok h
    rw [h4]
  | claimW sender _ _ _ h =>
    obtain ⟨-, -, -, -, -, h6, -⟩ := claimWinnings_ok h
    rw [h6]

/-- `creatorClaimed` is monotone: no step ever resets it. -/
theorem Step_creatorClaimed_mono {g g' : Game} (h : Step g g')
    (hc : g.creatorClaimed = true) : g'.creatorClaimed = true := by
  cases h with
  | join _ _ _ _ _ _ h =>
    obtain ⟨-, -, -, -, -, -, h7⟩ := joinGame_ok h
    rw [h7]; exact hc
  | request _ _ _ _ h =>
    obtain ⟨-, -, -, h4⟩ := requestReveal_ok h
    rw [h4]; exact hc
  | callback _ _ _ _ _ _ h =>
    obtain ⟨-, -, g1, r2, hcs, hrest⟩ := revealCallback_ok h
    have c := completeSettlement_ok (r := (g1, r2)) hcs
    have c12 : g1.creatorClaimed = g.creatorClaimed :=
      c.2.2.2.2.2.2.2.2.2.2.2.1
    rcases hrest with ⟨-, hpair⟩ | ⟨-, h5, -⟩
    · have hfst := congrArg Prod.fst hpair
      simp only at hfst
      rcases autoDistributeRewards_cases g1 with hc2 | ⟨-, -, hc2⟩
      · rw [hc2] at hfst; rw [hfst, c12]; exact hc
      · rw [hc2] at hfst; rw [hfst]
    · rw [h5, c12]; exact hc
  | debug _ _ _ _ _ _ h =>
    obtain ⟨-, -, -, -, r2, hcs⟩ := debugReveal_ok h
    have c := completeSettlement_ok (r := (_, r2)) hcs
    rw [c.2.2.2.2.2.2.2.2.2.2.2.1]; exact hc
  | fair _ _ _ _ _ _ _ h =>
    obtain ⟨-, -, -, -, r2, hcs⟩ := fairReveal_ok h
    have c := completeSettlement_ok (r := (_, r2)) hcs
    rw [c.2.2.2.2.2.2.2.2.2.2.2.1]; exact hc
  | auto _ _ _ _ h =>
    obtain ⟨-, -, hd⟩ := autoSettle_ok h
    rcases hd with h4 | ⟨-, h4⟩ <;> rw [h4] <;> exact hc
  | claimC _ _ _ _ h =>
    obtain ⟨-, -, -, h4, -⟩ := claimCreator_ok h
    rw [h4]
  | claimW sender _ _ _ h =>
    obtain ⟨-, -, -, -, -, h6, -⟩ := claimWinnings_ok h
    rw [h6]; exact hc

/-- A participant's `claimed` flag is monotone: no step ever resets it. -/
theorem Step_claimed_mono {g g' : Game} (h : Step g g') (a : Nat)
    (hc : (g.participants a).claimed = true) :
    (g'.participants a).claimed = true := by
  cases h with
  | join sender _ _ _ _ _ h =>
    obtain ⟨-, -, -, -, -, -, h7⟩ := joinGame_ok h
    rw [h7]
    dsimp only
    by_cases hEq : a = sender
    · subst hEq; rw [updP_same]; exact hc
    · rw [updP_ne _ _ _ hEq]; exact hc
  | request _ _ _ _ h =>
    obtain ⟨-, -, -, h4⟩ := requestReveal_ok h
    rw [h4]; exact hc
  | callback _ _ _ _ _ _ h =>
    obtain ⟨-, -, g1, r2, hcs, hrest⟩ := revealCallback_ok h
    have c := completeSettlement_ok (r := (g1, r2)) hcs
    have c18 : (g1.participants a).claimed = (g.participants a).claimed :=
      (c.2.2.2.2.2.2.2.2.2.2.2.2.2.2.2.2.2.1 a).2.2.2
    rcases hrest with ⟨-, hpair⟩ | ⟨-, h5, -⟩
    · have hfst := congrArg Prod.fst hpair
      simp only at hfst
      rcases autoDistributeRewards_cases g1 with hc2 | ⟨-, -, hc2⟩ <;>
        rw [hc2] at hfst <;> rw [hfst] <;> (try dsimp only) <;>
        rw [c18] <;> exact hc
    · rw [h5, c18]; exact hc
  | debug _ _ _ _ _ _ h =>
    obtain ⟨-, -, -, -, r2, hcs⟩ := debugReveal_ok h
    have c := completeSettlement_ok (r := (_, r2)) hcs
    rw [(c.2.2.2.2.2.2.2.2.2.2.2.2.2.2.2.2.2.1 a).2.2.2]; exact hc
  | fair _ _ _ _ _ _ _ h =>
    obtain ⟨-, -, -, -, r2, hcs⟩ := fairReveal_ok h
    have c := completeSettlement_ok (r := (_, r2)) hcs
    rw [(c.2.2.2.2.2.2.2.2.2.2.2.2.2.2.2.2.2.1 a).2.2.2]; exact hc
  | auto _ _ _ _ h =>
    obtain ⟨-, -, hd⟩ := autoSettle_ok h
    rcases hd with h4 | ⟨-, h4⟩ <;> rw [h4] <;> exact hc
  | claimC _ _ _ _ h =>
    obtain ⟨-, -, -, h4, -⟩ := claimCreator_ok h
    rw [h4]; exact hc
  | claimW sender _ _ _ h =>
    obtain ⟨-, -, -, -, -, h6, -⟩ := claimWinnings_ok h
    rw [h6]
    dsimp only
    by_cases hEq : a = sender
    · subst hEq; rw [updP_same]
    · rw [updP_ne _ _ _ hEq]; exact hc

/-- Marking with an all-`true` guesses array sets `guessedBig` (and
`choiceRevealed`) to `true` for every listed address. -/
theorem markRevealed_replicate_true (as : List Nat) (ps : Nat → Participant)
    (a : Nat) (ha : a ∈ as) :
    (markRevealed ps as (List.replicate as.length true) a).guessedBig = true ∧
    (markRevealed ps as (List.replicate as.length true) a).choiceRevealed = true := by
  induction as generalizing ps with
  | nil => cases ha
  | cons x xs ih =>
    rw [List.length_cons, List.replicate_succ, markRevealed]
    by_cases hmem : a ∈ xs
    · exact ih _ hmem
    · have hax : a = x := by
        rcases List.mem_cons.1 ha with h | h
        · exact h
        · exact absurd h hmem
      subst hax
      rw [markRevealed_not_mem _ _ _ _ hmem, updP_same]
      exact ⟨rfl, rfl⟩

/-- The participants mapping after `completeSettlement`: unchanged when the
list was empty, otherwise the `markRevealed` pass over `participantList`. -/
theorem completeSettlement_participants {g : Game} {rn : Nat} {gs : List Bool}
    {r : Game × Nat × Nat × Nat} (h : completeSettlement g rn gs = .ok r) :
    (g.participantList = [] ∧ r.1.participants = g.participants) ∨
    r.1.participants = markRevealed g.participants g.participantList gs := by
  simp only [completeSettlement] at h
  split_ifs at h with h1 h2 <;> try exact Except.noConfusion h
  · injection h with h
    subst h
    exact Or.inl ⟨List.length_eq_zero.1 h1, rfl⟩
  · injection h with h
    subst h
    exact Or.inr rfl

/-- C1 (code bug): the spec says the shared settlement computation sets
`creatorShare = P / 2`, `payoutPerWinner = (P - P/2) / k` for `k > 0` winners
and `creatorBonusRemainder = (P - P/2) - payoutPerWinner * k`.  Evaluating
`_completeSettlement` (via `debugReveal`) on the reachable game `gC1_2` with
pot `P = 12e15`, two participants, revealed number 8 and guesses
`[true, false]` (so one correct guess): the code instead assigns the whole
pot to the creator (`creatorShare = P`, not `P / 2`), with
`payoutPerWinner = 0` and `winnersCount = 0`. -/
theorem C1_settlement_at_failing_input :
    gC1_2.totalPot = 12000000000000000 ∧
    gC1_2.participantList.length = 2 ∧
    debugReveal 31337 4000 8 [true, false] gC1_2 = .ok gC1_s ∧
    gC1_s.creatorShare = 12000000000000000 ∧
    gC1_s.payoutPerWinner = 0 ∧
    gC1_s.creatorBonusRemainder = 0 ∧
    gC1_s.winnersCount = 0 ∧
    ¬ gC1_s.creatorShare = gC1_s.totalPot / 2 :=
  ⟨rfl, rfl, rfl, rfl, rfl, rfl, rfl, by decide⟩

/-- C2 (code bug): the spec says each participant ends settlement with
`won = (guesses[i] == (revealedNumber > 5))` and `winnersCount = count(won)`.
Evaluating the settlement on the reachable game `gC2_1` with revealed number
8 (big) and guesses `[true]`: participant 2 guessed big and the number is
big, so the claim requires `won = true`; the code never assigns `won`, so
participant 2 ends with `won = false` (while `choiceRevealed` and
`guessedBig` are set as claimed). -/
theorem C2_settlement_at_failing_input :
    debugReveal 31337 4000 8 [true] gC2_1 = .ok gC2_s ∧
    gC2_s.revealedNumber = 8 ∧
    gC2_s.numberIsBig = true ∧
    (gC2_s.participants 2).choiceRevealed = true ∧
    (gC2_s.participants 2).guessedBig = true ∧
    (gC2_s.participants 2).won = false ∧
    gC2_s.winnersCount = 0 :=
  ⟨rfl, rfl, rfl, rfl, rfl, rfl, rfl⟩

/-- C3 (confirmed): after any settlement,
`creatorShare + k * payoutPerWinner + creatorBonusRemainder` equals the pot
`P` exactly.  In the code `payoutPerWinner = 0` and `creatorShare = P`, so
the identity holds for the stored `winnersCount` and indeed for every `k`
(in particular for the number of correct guesses); `totalPot` itself is
unchanged by settlement. -/
theorem C3_settlement_accounting_identity (g : Game) (rn : Nat)
    (gs : List Bool) (r : Game × Nat × Nat × Nat)
    (h : completeSettlement g rn gs = .ok r) :
    (r.1.creatorShare + r.1.winnersCount * r.1.payoutPerWinner +
      r.1.creatorBonusRemainder = r.1.totalPot) ∧
    (∀ k : Nat, r.1.creatorShare + k * r.1.payoutPerWinner +
      r.1.creatorBonusRemainder = r.1.totalPot) ∧
    r.1.totalPot = g.totalPot := by
  obtain ⟨-, -, -, -, -, c6, c7, c8, c9, -⟩ := completeSettlement_ok h
  rw [c6, c7, c8, c9]
  exact ⟨by omega, fun k => by omega, rfl⟩

/-- Witness for C3 at the concrete settlement of round B. -/
theorem C3_settlement_accounting_identity_witness :
    completeSettlement gC2_1 8 [true] = .ok (gC2_s, 0, 11000000000000000, 0) ∧
    gC2_s.creatorShare + gC2_s.winnersCount * gC2_s.payoutPerWinner +
      gC2_s.creatorBonusRemainder = gC2_s.totalPot :=
  ⟨rfl, (C3_settlement_accounting_identity gC2_1 8 [true]
    (gC2_s, 0, 11000000000000000, 0) rfl).1⟩

/-- C6 (confirmed): settling a game with zero participants sets
`winnersCount = 0`, `creatorShare = totalPot`, `payoutPerWinner = 0`,
consults the guesses array not at all (any two arrays give the same
result), and the creator's subsequent claim transfers exactly `totalPot`. -/
theorem C6_zero_participant_settlement (g : Game) (rn : Nat)
    (gs gs2 : List Bool) (hE : g.participantList = [])
    (hc : g.creatorClaimed = false) :
    completeSettlement g rn gs = completeSettlement g rn gs2 ∧
    completeSettlement g rn gs = .ok
      ({ g with revealPending := false, settled := true, revealedNumber := rn
                numberIsBig := decide (rn > 5), winnersCount := 0
                creatorShare := g.totalPot, payoutPerWinner := 0
                creatorBonusRemainder := 0 }, 0, g.totalPot, 0) ∧
    claimCreator g.creator
      { g with revealPending := false, settled := true, revealedNumber := rn
               numberIsBig := decide (rn > 5), winnersCount := 0
               creatorShare := g.totalPot, payoutPerWinner := 0
               creatorBonusRemainder := 0 } =
      .ok ({ g with revealPending := false, settled := true, revealedNumber := rn
                    numberIsBig := decide (rn > 5), winnersCount := 0
                    creatorShare := g.totalPot, payoutPerWinner := 0
                    creatorBonusRemainder := 0, creatorClaimed := true },
           [(g.creator, g.totalPot)]) := by
  have hlen : g.participantList.length = 0 := by rw [hE]; rfl
  refine ⟨by simp [completeSettlement, hlen],
          by simp [completeSettlement, hlen], ?_⟩
  simp [claimCreator, hc]

/-- Witness for C6 at the freshly created round B (no participants). -/
theorem C6_zero_participant_settlement_witness :
    completeSettlement gC2_0 3 [] = completeSettlement gC2_0 3 [true] ∧
    completeSettlement gC2_0 3 [] = .ok
      ({ gC2_0 with revealPending := false, settled := true, revealedNumber := 3
                    numberIsBig := decide (3 > 5), winnersCount := 0
                    creatorShare := gC2_0.totalPot, payoutPerWinner := 0
                    creatorBonusRemainder := 0 }, 0, gC2_0.totalPot, 0) ∧
    claimCreator gC2_0.creator
      { gC2_0 with revealPending := false, settled := true, revealedNumber := 3
                   numberIsBig := decide (3 > 5), winnersCount := 0
                   creatorShare := gC2_0.totalPot, payoutPerWinner := 0
                   creatorBonusRemainder := 0 } =
      .ok ({ gC2_0 with revealPending := false, settled := true
                        revealedNumber := 3, numberIsBig := decide (3 > 5)
                        winnersCount := 0, creatorShare := gC2_0.totalPot
                        payoutPerWinner := 0, creatorBonusRemainder := 0
                        creatorClaimed := true },
           [(gC2_0.creator, gC2_0.totalPot)]) :=
  C6_zero_participant_settlement gC2_0 3 [] [true] rfl rfl

/-- C7 (confirmed): a `fairReveal` whose (secret, salt) pair does not hash to
the stored commitment can never succeed, and — when it is not rejected by one
of the earlier guards (already settled, round still active, caller not the
creator, which the claim presupposes by "settled remains false") — it fails
with exactly `hashMismatch`.  An error leaves the stored state unchanged by
the revert semantics of the embedding. -/
theorem C7_fairReveal_hash_mismatch (keccak : Nat → Nat → Nat)
    (sender now secret salt : Nat) (g : Game)
    (hne : keccak secret salt ≠ g.secretNumberHash) :
    (∀ g', fairReveal keccak sender now secret salt g ≠ .ok g') ∧
    (g.settled = false → g.endTime ≤ now → sender = g.creator →
      fairReveal keccak sender now secret salt g = .error .hashMismatch) := by
  constructor
  · intro g' hok
    exact hne (fairReveal_ok hok).2.2.2.1
  · intro hs hle hcr
    simp [fairReveal, hs, hle, hcr, hne]

/-- Witness for C7: wrong hash on the live round B (commitment 999). -/
theorem C7_fairReveal_hash_mismatch_witness :
    (fun a b : Nat => a + b) 8 0 ≠ gC2_1.secretNumberHash ∧
    fairReveal (fun a b : Nat => a + b) 1 4000 8 0 gC2_1 =
      .error .hashMismatch :=
  ⟨by decide,
   (C7_fairReveal_hash_mismatch (fun a b : Nat => a + b) 1 4000 8 0 gC2_1
     (by decide)).2 rfl (by decide) rfl⟩

/-- C10 (confirmed, implicit claim): a successful `fairReveal` settles with a
guesses array it builds itself — `true` at every index — never reading the
participants' stored encrypted choices, so every participant ends with
`guessedBig = true` (and `choiceRevealed = true`) regardless of the choice
they actually submitted. -/
theorem C10_fairReveal_ignores_stored_choices (keccak : Nat → Nat → Nat)
    (sender now secret salt : Nat) (g g' : Game)
    (h : fairReveal keccak sender now secret salt g = .ok g') :
    ∀ a ∈ g.participantList,
      (g'.participants a).guessedBig = true ∧
      (g'.participants a).choiceRevealed = true := by
  obtain ⟨-, -, -, -, r2, hcs⟩ := fairReveal_ok h
  intro a ha
  rcases completeSettlement_participants (r := (g', r2)) hcs with ⟨hE, -⟩ | hP
  · rw [hE] at ha; cases ha
  · rw [hP]
    exact markRevealed_replicate_true g.participantList g.participants a ha

/-- Witness for C10: in round A challenger 3 submitted `choice = false`
(small), yet after `fairReveal` their `guessedBig` is `true`. -/
theorem C10_fairReveal_ignores_stored_choices_witness :
    (gC1_2.participants 3).choice = false ∧
    fairReveal (fun a b => a + b + 991) 1 4000 8 0 gC1_2 = .ok gC1_f ∧
    (gC1_f.participants 3).guessedBig = true ∧
    (gC1_f.participants 3).choiceRevealed = true :=
  ⟨rfl, rfl,
   (C10_fairReveal_ignores_stored_choices (fun a b => a + b + 991) 1 4000 8 0
     gC1_2 gC1_f rfl 3 (by decide)).1,
   (C10_fairReveal_ignores_stored_choices (fun a b => a + b + 991) 1 4000 8 0
     gC1_2 gC1_f rfl 3 (by decide)).2⟩

/-- C4 counterexample: the claim says the oracle callback also fails with
`AlreadySettled` on a settled game; at the reachable settled state `gC2_s`
the callback in fact fails with `noPendingReveal` (its only guard is
`revealPending`, which settlement has cleared). -/
theorem C4_callback_error_counterexample :
    gC2_s.settled = true ∧
    revealCallback true 8 [] gC2_s = .error .noPendingReveal ∧
    Err.noPendingReveal ≠ Err.alreadySettled :=
  ⟨rfl, rfl, by decide⟩

/-- C4 (amended): settled is terminal.  Once `settled = true`,
`requestReveal` (whose deadline guard runs first, and which any call after
settlement satisfies since time is monotone), `fairReveal`, and `debugReveal`
(on a debug chain id, its first guard) fail with `alreadySettled`; the oracle
callback fails with `noPendingReveal` because settled games have
`revealPending = false`.  Every such error is a revert, leaving all
post-reveal fields unchanged.  `requestReveal` is also unreachable whenever
`revealPending = true`: it can only fail, with one of its three guard
errors. -/
theorem C4_settled_is_terminal :
    (∀ (now rid : Nat) (g : Game), g.settled = true → g.endTime ≤ now →
        requestReveal now rid g = .error .alreadySettled) ∧
    (∀ (keccak : Nat → Nat → Nat) (sender now secret salt : Nat) (g : Game),
        g.settled = true →
        fairReveal keccak sender now secret salt g = .error .alreadySettled) ∧
    (∀ (chainid now rn : Nat) (gs : List Bool) (g : Game),
        (chainid = 31337 ∨ chainid = 1337) → g.settled = true →
        debugReveal chainid now rn gs g = .error .alreadySettled) ∧
    (∀ (sigOk : Bool) (rev : Nat) (gs : List Bool) (g : Game),
        g.revealPending = false →
        revealCallback sigOk rev gs g = .error .noPendingReveal) ∧
    (∀ (now rid : Nat) (g : Game), g.revealPending = true →
        requestReveal now rid g = .error .roundStillActive ∨
        requestReveal now rid g = .error .alreadySettled ∨
        requestReveal now rid g = .error .revealAlreadyPending) := by
  refine ⟨?_, ?_, ?_, ?_, ?_⟩
  · intro now rid g hs hle
    simp [requestReveal, hs, hle]
  · intro keccak sender now secret salt g hs
    simp [fairReveal, hs]
  · intro chainid now rn gs g hcid hs
    rcases hcid with hc | hc <;> subst hc <;> simp [debugReveal, hs]
  · intro sigOk rev gs g hrp
    simp [revealCallback, hrp]
  · intro now rid g hrp
    unfold requestReveal
    split_ifs with h1 h2 h3 <;>
      first
        | exact Or.inl rfl
        | exact Or.inr (Or.inl rfl)
        | exact Or.inr (Or.inr rfl)
        | simp_all

/-- Witness for amended C4 at the settled state `gC2_s` and the
reveal-pending state `gC2_p`. -/
theorem C4_settled_is_terminal_witness :
    requestReveal 4000 9 gC2_s = .error .alreadySettled ∧
    fairReveal (fun a b : Nat => a + b) 1 4000 8 0 gC2_s =
      .error .alreadySettled ∧
    debugReveal 31337 4000 8 [true] gC2_s = .error .alreadySettled ∧
    revealCallback true 8 [] gC2_s = .error .noPendingReveal ∧
    (requestReveal 4000 9 gC2_p = .error .roundStillActive ∨
     requestReveal 4000 9 gC2_p = .error .alreadySettled ∨
     requestReveal 4000 9 gC2_p = .error .revealAlreadyPending) :=
  ⟨C4_settled_is_terminal.1 4000 9 gC2_s rfl (by decide),
   C4_settled_is_terminal.2.1 (fun a b : Nat => a + b) 1 4000 8 0 gC2_s rfl,
   C4_settled_is_terminal.2.2.1 31337 4000 8 [true] gC2_s (Or.inl rfl) rfl,
   C4_settled_is_terminal.2.2.2.1 true 8 [] gC2_s rfl,
   C4_settled_is_terminal.2.2.2.2 4000 9 gC2_p rfl⟩

/-- C5 (confirmed): pot accounting.  A valid `createGame` starts with
`totalPot = rewardPool`; each successful `joinGame` adds exactly the
joiner's stake (`msg.value`, recorded as their stake); at every reachable
unsettled state `totalPot = rewardPool + Σ stakes`; and no step changes
`totalPot` once the game is settled. -/
theorem C5_totalPot_accounting :
    (∀ (sender now msgValue handle hash minStake endTime rewardPool : Nat)
        (autoS : Bool) (g : Game),
        createGame sender now msgValue handle hash minStake endTime
          rewardPool autoS = .ok g →
        g.totalPot = g.rewardPool ∧ g.rewardPool = rewardPool) ∧
    (∀ (sender now msgValue : Nat) (choice : Bool) (g g' : Game),
        joinGame sender now msgValue choice g = .ok g' →
        g'.totalPot = g.totalPot + msgValue ∧
        (g'.participants sender).stake = msgValue) ∧
    (∀ (sender now msgValue handle hash minStake endTime rewardPool : Nat)
        (autoS : Bool) (g0 g : Game),
        createGame sender now msgValue handle hash minStake endTime
          rewardPool autoS = .ok g0 →
        ReachableFrom g0 g → g.settled = false →
        g.totalPot = g.rewardPool + stakesSum g) ∧
    (∀ g g' : Game, Step g g' → g.settled = true →
        g'.totalPot = g.totalPot) := by
  refine ⟨?_, ?_, ?_, ?_⟩
  · intro sender now msgValue handle hash minStake endTime rewardPool autoS g h
    obtain ⟨-, -, -, -, h5⟩ := createGame_ok h
    subst h5
    exact ⟨rfl, rfl⟩
  · intro sender now msgValue choice g g' h
    obtain ⟨-, -, -, -, -, -, h7⟩ := joinGame_ok h
    subst h7
    refine ⟨rfl, ?_⟩
    dsimp only
    rw [updP_same]
  · intro sender now msgValue handle hash minStake endTime rewardPool autoS
      g0 g hc hr hset
    exact (Inv_reachable hr (Inv_create hc)).2.2.2.1 hset
  · intro g g' hstep hs
    exact Step_totalPot hstep hs

/-- Witness for C5: the concrete round B creation, join, the created state
as a reachable unsettled state, and a claim step from the settled state. -/
theorem C5_totalPot_accounting_witness :
    (gC2_0.totalPot = gC2_0.rewardPool ∧
     gC2_0.rewardPool = 10000000000000000) ∧
    (gC2_1.totalPot = gC2_0.totalPot + 1000000000000000 ∧
     (gC2_1.participants 2).stake = 1000000000000000) ∧
    gC2_0.totalPot = gC2_0.rewardPool + stakesSum gC2_0 ∧
    gC2_c.totalPot = gC2_s.totalPot :=
  ⟨C5_totalPot_accounting.1 1 0 10000000000000000 7 999 1000000000000000
     4000 10000000000000000 false gC2_0 rfl,
   C5_totalPot_accounting.2.1 2 10 1000000000000000 true gC2_0 gC2_1 rfl,
   C5_totalPot_accounting.2.2.1 1 0 10000000000000000 7 999 1000000000000000
     4000 10000000000000000 false gC2_0 gC2_0 rfl
     Relation.ReflTransGen.refl rfl,
   C5_totalPot_accounting.2.2.2 gC2_s gC2_c
     (Step.claimC 1 gC2_s gC2_c [(1, 11000000000000000)] rfl) rfl⟩

/-- C8 (confirmed): both claim entry points succeed only under their
preconditions and fail with the matching error otherwise.  `claimCreator`
succeeds only when settled, called by the creator and not yet claimed, and —
on any reachable game — the transferred amount
`creatorShare + creatorBonusRemainder` is positive (the code has no explicit
amount check there, but settlement always assigns the whole pot, which is at
least the reward floor); `claimWinnings` additionally requires a joined
winning participant and a positive `payoutPerWinner`, failing with
`nothingToClaim` otherwise. -/
theorem C8_claim_preconditions :
    (∀ (sender : Nat) (g g' : Game) (ts : List (Nat × Nat)),
        claimCreator sender g = .ok (g', ts) →
        g.settled = true ∧ sender = g.creator ∧ g.creatorClaimed = false ∧
        ts = [(sender, g.creatorShare + g.creatorBonusRemainder)]) ∧
    (∀ (sender now msgValue handle hash minStake endTime rewardPool : Nat)
        (autoS : Bool) (g0 g : Game),
        createGame sender now msgValue handle hash minStake endTime
          rewardPool autoS = .ok g0 →
        ReachableFrom g0 g →
        ∀ (caller : Nat) (g' : Game) (ts : List (Nat × Nat)),
        claimCreator caller g = .ok (g', ts) →
        0 < g.creatorShare + g.creatorBonusRemainder) ∧
    (∀ (sender : Nat) (g : Game), g.settled = false →
        claimCreator sender g = .error .notSettled) ∧
    (∀ (sender : Nat) (g : Game), g.settled = true → sender ≠ g.creator →
        claimCreator sender g = .error .notCreator) ∧
    (∀ (sender : Nat) (g : Game), g.settled = true → sender = g.creator →
        g.creatorClaimed = true →
        claimCreator sender g = .error .alreadyClaimed) ∧
    (∀ (sender : Nat) (g g' : Game) (ts : List (Nat × Nat)),
        claimWinnings sender g = .ok (g', ts) →
        g.settled = true ∧ (g.participants sender).exists_ = true ∧
        (g.participants sender).won = true ∧
        (g.participants sender).claimed = false ∧
        0 < g.payoutPerWinner ∧ ts = [(sender, g.payoutPerWinner)]) ∧
    (∀ (sender : Nat) (g : Game), g.settled = false →
        claimWinnings sender g = .error .notSettled) ∧
    (∀ (sender : Nat) (g : Game), g.settled = true →
        (g.participants sender).exists_ = false →
        claimWinnings sender g = .error .notAChallenger) ∧
    (∀ (sender : Nat) (g : Game), g.settled = true →
        (g.participants sender).exists_ = true →
        (g.participants sender).won = false →
        claimWinnings sender g = .error .notEligible) ∧
    (∀ (sender : Nat) (g : Game), g.settled = true →
        (g.participants sender).exists_ = true →
        (g.participants sender).won = true →
        (g.participants sender).claimed = true →
        claimWinnings sender g = .error .alreadyClaimed) ∧
    (∀ (sender : Nat) (g : Game), g.settled = true →
        (g.participants sender).exists_ = true →
        (g.participants sender).won = true →
        (g.participants sender).claimed = false → g.payoutPerWinner = 0 →
        claimWinnings sender g = .error .nothingToClaim) := by
  refine ⟨?_, ?_, ?_, ?_, ?_, ?_, ?_, ?_, ?_, ?_, ?_⟩
  · intro sender g g' ts h
    obtain ⟨h1, h2, h3, -, h5⟩ := claimCreator_ok h
    exact ⟨h1, h2, h3, h5⟩
  · intro sender now msgValue handle hash minStake endTime rewardPool autoS
      g0 g hc hr caller g' ts h
    obtain ⟨i1, -, -, -, i5, -⟩ := Inv_reachable hr (Inv_create hc)
    obtain ⟨hset, -⟩ := claimCreator_ok h
    have hge : MIN_CREATOR_REWARD ≤ g.creatorShare := le_trans i1 (i5 hset)
    unfold MIN_CREATOR_REWARD at hge
    omega
  · intro sender g hs; simp [claimCreator, hs]
  · intro sender g hs hnc; simp [claimCreator, hs, hnc]
  · intro sender g hs hcr hcl; simp [claimCreator, hs, hcr, hcl]
  · intro sender g g' ts h
    obtain ⟨h1, h2, h3, h4, h5, -, h7⟩ := claimWinnings_ok h
    exact ⟨h1, h2, h3, h4, h5, h7⟩
  · intro sender g hs; simp [claimWinnings, hs]
  · intro sender g hs hex; simp [claimWinnings, hs, hex]
  · intro sender g hs hex hwon; simp [claimWinnings, hs, hex, hwon]
  · intro sender g hs hex hwon hcl
    simp [claimWinnings, hs, hex, hwon, hcl]
  · intro sender g hs hex hwon hcl hp
    simp [claimWinnings, hs, hex, hwon, hcl, hp]

/-- Witness for C8: every conjunct exercised at a concrete state — the
settled round B for the creator path, and the winner test states `gW`,
`gWc`, `gW0` for the participant path. -/
theorem C8_claim_preconditions_witness :
    (gC2_s.settled = true ∧ (1 : Nat) = gC2_s.creator ∧
     gC2_s.creatorClaimed = false ∧
     [((1 : Nat), 11000000000000000)] =
       [(1, gC2_s.creatorShare + gC2_s.creatorBonusRemainder)]) ∧
    0 < gC2_s.creatorShare + gC2_s.creatorBonusRemainder ∧
    claimCreator 1 gC2_1 = .error .notSettled ∧
    claimCreator 2 gC2_s = .error .notCreator ∧
    claimCreator 1 gC2_c = .error .alreadyClaimed ∧
    (gW.settled = true ∧ (gW.participants 2).exists_ = true ∧
     (gW.participants 2).won = true ∧ (gW.participants 2).claimed = false ∧
     0 < gW.payoutPerWinner ∧ [((2 : Nat), 5)] = [(2, gW.payoutPerWinner)]) ∧
    claimWinnings 2 gC2_1 = .error .notSettled ∧
    claimWinnings 9 gC2_s = .error .notAChallenger ∧
    claimWinnings 2 gC2_s = .error .notEligible ∧
    claimWinnings 2 gWc = .error .alreadyClaimed ∧
    claimWinnings 2 gW0 = .error .nothingToClaim :=
  ⟨(fun c => ⟨c.1, c.2.1, c.2.2.1, by rw [c.2.2.2]⟩)
     (C8_claim_preconditions.1 1 gC2_s gC2_c [(1, 11000000000000000)] rfl),
   C8_claim_preconditions.2.1 1 0 10000000000000000 7 999 1000000000000000
     4000 10000000000000000 false gC2_0 gC2_s rfl
     (Relation.ReflTransGen.tail
       (Relation.ReflTransGen.tail Relation.ReflTransGen.refl
         (Step.join 2 10 1000000000000000 true gC2_0 gC2_1 rfl))
       (Step.debug 31337 4000 8 [true] gC2_1 gC2_s rfl))
     1 gC2_c [(1, 11000000000000000)] rfl,
   C8_claim_preconditions.2.2.1 1 gC2_1 rfl,
   C8_claim_preconditions.2.2.2.1 2 gC2_s rfl (by decide),
   C8_claim_preconditions.2.2.2.2.1 1 gC2_c rfl rfl rfl,
   (fun c => ⟨c.1, c.2.1, c.2.2.1, c.2.2.2.1, c.2.2.2.2.1,
      by rw [c.2.2.2.2.2]⟩)
     (C8_claim_preconditions.2.2.2.2.2.1 2 gW gWc [(2, 5)] rfl),
   C8_claim_preconditions.2.2.2.2.2.2.1 2 gC2_1 rfl,
   C8_claim_preconditions.2.2.2.2.2.2.2.1 9 gC2_s rfl rfl,
   C8_claim_preconditions.2.2.2.2.2.2.2.2.1 2 gC2_s rfl rfl rfl,
   C8_claim_preconditions.2.2.2.2.2.2.2.2.2.1 2 gWc rfl rfl rfl rfl,
   C8_claim_preconditions.2.2.2.2.2.2.2.2.2.2 2 gW0 rfl rfl rfl rfl rfl⟩

/-- C9 (confirmed): each claim succeeds at most once per identity.  A
successful claim returns a state whose claimed flag is already `true`
(the flag is assigned before the transfer in the function body) together
with the single transfer it made; a repeated claim on that state fails with
`alreadyClaimed`; and no step of the system ever resets either flag. -/
theorem C9_claim_at_most_once :
    (∀ (sender : Nat) (g g' : Game) (ts : List (Nat × Nat)),
        claimCreator sender g = .ok (g', ts) →
        g'.creatorClaimed = true ∧
        ts = [(sender, g.creatorShare + g.creatorBonusRemainder)] ∧
        claimCreator sender g' = .error .alreadyClaimed) ∧
    (∀ (sender : Nat) (g g' : Game) (ts : List (Nat × Nat)),
        claimWinnings sender g = .ok (g', ts) →
        (g'.participants sender).claimed = true ∧
        ts = [(sender, g.payoutPerWinner)] ∧
        claimWinnings sender g' = .error .alreadyClaimed) ∧
    (∀ g g' : Game, Step g g' → g.creatorClaimed = true →
        g'.creatorClaimed = true) ∧
    (∀ (g g' : Game) (a : Nat), Step g g' →
        (g.participants a).claimed = true →
        (g'.participants a).claimed = true) := by
  refine ⟨?_, ?_, ?_, ?_⟩
  · intro sender g g' ts h
    obtain ⟨hset, hcr, -, h4, h5⟩ := claimCreator_ok h
    subst h4
    exact ⟨rfl, h5, by simp [claimCreator, hset, hcr]⟩
  · intro sender g g' ts h
    obtain ⟨hset, hex, hwon, -, -, h6, h7⟩ := claimWinnings_ok h
    subst h6
    refine ⟨by dsimp only; rw [updP_same], h7, ?_⟩
    simp [claimWinnings, updP, hset, hex, hwon]
  · intro g g' hstep hc
    exact Step_creatorClaimed_mono hstep hc
  · intro g g' a hstep hc
    exact Step_claimed_mono hstep a hc

/-- Witness for C9: concrete double claims on round B and the winner test
state, plus monotonicity across concrete claim steps. -/
theorem C9_claim_at_most_once_witness :
    (gC2_c.creatorClaimed = true ∧
     [((1 : Nat), 11000000000000000)] =
       [(1, gC2_s.creatorShare + gC2_s.creatorBonusRemainder)] ∧
     claimCreator 1 gC2_c = .error .alreadyClaimed) ∧
    ((gWc.participants 2).claimed = true ∧
     [((2 : Nat), 5)] = [(2, gW.payoutPerWinner)] ∧
     claimWinnings 2 gWc = .error .alreadyClaimed) ∧
    gWAB.creatorClaimed = true ∧
    (gWcc.participants 2).claimed = true :=
  ⟨C9_claim_at_most_once.1 1 gC2_s gC2_c [(1, 11000000000000000)] rfl,
   C9_claim_at_most_once.2.1 2 gW gWc [(2, 5)] rfl,
   C9_claim_at_most_once.2.2.1 gWA gWAB
     (Step.claimW 2 gWA gWAB [(2, 5)] rfl) rfl,
   C9_claim_at_most_once.2.2.2 gWc gWcc 2
     (Step.claimC 1 gWc gWcc [(1, 11000000000000000)] rfl) rfl⟩

end EncryptedHighLow
